import Mathlib

/-!
Shallow embedding of the `resilience` package (src/v1/resilience.go).

The package wraps an http.Handler so that a caller-supplied policy
(`ShouldFail`) may force the response to fail: once before dispatch
(`Handler.ServeHTTP`, phase 1) and once at the first header commit
(`responseWriter.WriteHeader`, phase 2).

Modelling choices:
* The request is an opaque value of an arbitrary type `Req`, threaded
  through unchanged, exactly as the Go code does.
* The real `http.ResponseWriter` underneath the guard is an abstract
  stateful sink `Sink σ ρ`: `writeHeader` updates its state, `write`
  updates its state and yields a value of an abstract type `ρ`
  (the Go `(size, err)` pair), which the guard forwards verbatim.
* Every externally observable call (policy invocation, handler
  dispatch, sink commit, sink byte write) is recorded in an event
  trace inside the per-request state `St`.
* A Go `panic` is modelled as `Except.error (s, st)`: the offending
  status value together with the state at the moment of the abort.
* The downstream handler interacts with the guard only through
  `WriteHeader` and `Write`; it is modelled as the list of those calls
  (`List Action`), interpreted by `runHandler`.
-/

namespace Resilience

/-- Externally observable events of one request: a policy call with its
phase flag and result, the dispatch of the downstream handler, a status
commit reaching the real sink, and body bytes reaching the real sink. -/
inductive Ev (Req : Type) where
  | policy (r : Req) (afterHeader : Bool) (result : Int)
  | invoke (r : Req)
  | sinkWriteHeader (status : Int)
  | sinkWrite (data : List Nat)
  deriving DecidableEq

/-- The real response sink underneath the guard: abstract state `σ`,
abstract result type `ρ` for byte writes (Go returns `(size, err)`). -/
structure Sink (σ ρ : Type) where
  writeHeader : σ → Int → σ
  write : σ → List Nat → σ × ρ

/-- Per-request state: the real sink state, the event trace so far, and
the guard's `status` field (0 while uncommitted, as in the Go struct). -/
structure St (Req σ : Type) where
  sink : σ
  events : List (Ev Req)
  status : Int
  deriving DecidableEq

variable {Req σ ρ : Type}

/-- Embedding of `responseWriter.WriteHeader`.  If `status` is already
nonzero the call returns at once.  Otherwise the policy is consulted with
`afterHeader = true`; a nonzero result outside [400,600) panics, a valid
nonzero result replaces the caller's code; finally the resolved code is
delegated to the real sink and recorded in `status`. -/
def rwWriteHeader (sf : Req → Bool → Int) (sk : Sink σ ρ) (req : Req)
    (st : St Req σ) (status : Int) : Except (Int × St Req σ) (St Req σ) :=
  if st.status ≠ 0 then
    Except.ok st
  else
    if sf req true ≠ 0 then
      if sf req true < 400 ∨ 600 ≤ sf req true then
        Except.error (sf req true,
          ⟨st.sink, st.events ++ [Ev.policy req true (sf req true)], st.status⟩)
      else
        Except.ok ⟨sk.writeHeader st.sink (sf req true),
          st.events ++ [Ev.policy req true (sf req true),
            Ev.sinkWriteHeader (sf req true)],
          sf req true⟩
    else
      Except.ok ⟨sk.writeHeader st.sink status,
        st.events ++ [Ev.policy req true (sf req true),
          Ev.sinkWriteHeader status],
        status⟩

/-- Embedding of `responseWriter.Write`.  A write on an uncommitted
response first performs the implicit `WriteHeader 200` (http.StatusOK),
then the bytes are delegated to the real sink and the sink's result is
returned unchanged. -/
def rwWrite (sf : Req → Bool → Int) (sk : Sink σ ρ) (req : Req)
    (st : St Req σ) (data : List Nat) :
    Except (Int × St Req σ) (St Req σ × ρ) :=
  match (if st.status = 0 then rwWriteHeader sf sk req st 200 else Except.ok st) with
  | Except.error e => Except.error e
  | Except.ok st2 =>
      Except.ok (⟨(sk.write st2.sink data).1,
        st2.events ++ [Ev.sinkWrite data], st2.status⟩,
        (sk.write st2.sink data).2)

/-- One call the downstream handler makes on its response writer. -/
inductive Action where
  | writeHeader (status : Int)
  | write (data : List Nat)
  deriving DecidableEq

/-- Interpretation of the downstream handler: its calls on the guard are
executed in order; a panic propagates immediately. -/
def runHandler (sf : Req → Bool → Int) (sk : Sink σ ρ) (req : Req) :
    List Action → St Req σ → Except (Int × St Req σ) (St Req σ)
  | [], st => Except.ok st
  | Action.writeHeader c :: rest, st =>
      match rwWriteHeader sf sk req st c with
      | Except.error e => Except.error e
      | Except.ok st2 => runHandler sf sk req rest st2
  | Action.write d :: rest, st =>
      match rwWrite sf sk req st d with
      | Except.error e => Except.error e
      | Except.ok out => runHandler sf sk req rest out.1

/-- Embedding of `Handler.ServeHTTP`: the phase-1 policy call either
short-circuits (committing its status straight to the real sink, or
panicking on an invalid value), or the downstream handler is dispatched
with the guard wrapped around the sink. -/
def serveHTTP (sf : Req → Bool → Int) (sk : Sink σ ρ)
    (handler : List Action) (req : Req) (sk0 : σ) :
    Except (Int × St Req σ) (St Req σ) :=
  if sf req false ≠ 0 then
    if sf req false < 400 ∨ 600 ≤ sf req false then
      Except.error (sf req false,
        ⟨sk0, [Ev.policy req false (sf req false)], 0⟩)
    else
      Except.ok ⟨sk.writeHeader sk0 (sf req false),
        [Ev.policy req false (sf req false),
          Ev.sinkWriteHeader (sf req false)], 0⟩
  else
    runHandler sf sk req handler
      ⟨sk0, [Ev.policy req false (sf req false), Ev.invoke req], 0⟩

/-- State at the end of request processing, whether it returned normally
or aborted: a Go panic leaves behind the side effects performed so far. -/
def finalSt : Except (Int × St Req σ) (St Req σ) → St Req σ
  | Except.ok st => st
  | Except.error e => e.2

/-- Statuses delivered to the real sink, in order. -/
def commitEvents : List (Ev Req) → List Int
  | [] => []
  | Ev.sinkWriteHeader c :: rest => c :: commitEvents rest
  | _ :: rest => commitEvents rest

/-- Byte chunks delivered to the real sink, in order. -/
def bodyChunks : List (Ev Req) → List (List Nat)
  | [] => []
  | Ev.sinkWrite d :: rest => d :: bodyChunks rest
  | _ :: rest => bodyChunks rest

/-- Number of policy calls with `afterHeader = false` (phase 1). -/
def phase1Calls : List (Ev Req) → Nat
  | [] => 0
  | Ev.policy _ false _ :: rest => phase1Calls rest + 1
  | _ :: rest => phase1Calls rest

/-- Number of policy calls with `afterHeader = true` (phase 2). -/
def phase2Calls : List (Ev Req) → Nat
  | [] => 0
  | Ev.policy _ true _ :: rest => phase2Calls rest + 1
  | _ :: rest => phase2Calls rest

/-- Byte chunks the downstream handler writes, in order. -/
def handlerWrites : List Action → List (List Nat)
  | [] => []
  | Action.writeHeader _ :: rest => handlerWrites rest
  | Action.write d :: rest => d :: handlerWrites rest

/-- The status one call would commit when the phase-2 decision is 0:
the explicit code for `WriteHeader c`, the implicit 200 for a write. -/
def actCode : Action → Int
  | Action.writeHeader c => c
  | Action.write _ => 200

/-- Byte chunks a single action delivers. -/
def actWrites : Action → List (List Nat)
  | Action.write d => [d]
  | Action.writeHeader _ => []

/-- The status the handler's first response call commits when no fault
is injected: code of the first `WriteHeader` if it precedes any body
write, 200 if the first call is a body write, 0 if there is no call. -/
def firstCode : List Action → Int
  | [] => 0
  | a :: _ => actCode a

/-- The first status code the downstream handler explicitly sets through
`WriteHeader`, anywhere in its call sequence (spec wording for C3). -/
def firstSetStatus : List Action → Option Int
  | [] => none
  | Action.writeHeader c :: _ => some c
  | Action.write _ :: rest => firstSetStatus rest

/-- True when every explicit `WriteHeader` call of the handler uses a
nonzero status code (0 being the guard's "uncommitted" sentinel). -/
def nonzeroCodes : List Action → Bool
  | [] => true
  | Action.writeHeader c :: rest => decide (c ≠ 0) && nonzeroCodes rest
  | Action.write _ :: rest => nonzeroCodes rest

/-- Real-sink state after a sequence of byte writes. -/
def sinkAfter (sk : Sink σ ρ) (s : σ) : List (List Nat) → σ
  | [] => s
  | d :: rest => sinkAfter sk (sk.write s d).1 rest

/-- Event is the dispatch marker. -/
def isInvokeEv : Ev Req → Bool
  | Ev.invoke _ => true
  | _ => false

/-- A status reached the real sink before the downstream handler was
dispatched: the interceptor's own phase-1 forced write. -/
def forcedEarly (es : List (Ev Req)) : Bool :=
  !(commitEvents (es.takeWhile fun e => !isInvokeEv e)).isEmpty

/-- Fixed policies and a concrete sink used for witnesses: the sink
counts its calls in `σ = Nat` and returns the chunk length in `ρ = Nat`. -/
def natSink : Sink Nat Nat :=
  ⟨fun s _ => s + 1, fun s d => (s + 1, d.length)⟩

/-- Policy that never injects a fault. -/
def sfZero : Nat → Bool → Int := fun _ _ => 0

/-- Policy returning the invalid value 399 at every phase. -/
def sf399 : Nat → Bool → Int := fun _ _ => 399

/-- Policy passing phase 1 and forcing 500 at phase 2. -/
def sfLate500 : Nat → Bool → Int := fun _ ah => if ah then 500 else 0

/-- Policy passing phase 1 and returning the invalid 700 at phase 2. -/
def sfLate700 : Nat → Bool → Int := fun _ ah => if ah then 700 else 0

/-- Policy forcing 503 at every phase. -/
def sf503 : Nat → Bool → Int := fun _ _ => 503

/-! Small computation lemmas for the trace projections. -/

@[simp] theorem commitEvents_nil : commitEvents ([] : List (Ev Req)) = [] := rfl

@[simp] theorem commitEvents_policy (r : Req) (b : Bool) (x : Int)
    (rest : List (Ev Req)) :
    commitEvents (Ev.policy r b x :: rest) = commitEvents rest := rfl

@[simp] theorem commitEvents_invoke (r : Req) (rest : List (Ev Req)) :
    commitEvents (Ev.invoke r :: rest) = commitEvents rest := rfl

@[simp] theorem commitEvents_commit (c : Int) (rest : List (Ev Req)) :
    commitEvents (Ev.sinkWriteHeader c :: rest) = c :: commitEvents rest := rfl

@[simp] theorem commitEvents_write (d : List Nat) (rest : List (Ev Req)) :
    commitEvents (Ev.sinkWrite d :: rest) = commitEvents rest := rfl

@[simp] theorem commitEvents_append (a b : List (Ev Req)) :
    commitEvents (a ++ b) = commitEvents a ++ commitEvents b := by
  induction a with
  | nil => simp
  | cons e rest ih => cases e <;> simp [ih]

@[simp] theorem bodyChunks_nil : bodyChunks ([] : List (Ev Req)) = [] := rfl

@[simp] theorem bodyChunks_policy (r : Req) (b : Bool) (x : Int)
    (rest : List (Ev Req)) :
    bodyChunks (Ev.policy r b x :: rest) = bodyChunks rest := rfl

@[simp] theorem bodyChunks_invoke (r : Req) (rest : List (Ev Req)) :
    bodyChunks (Ev.invoke r :: rest) = bodyChunks rest := rfl

@[simp] theorem bodyChunks_commit (c : Int) (rest : List (Ev Req)) :
    bodyChunks (Ev.sinkWriteHeader c :: rest) = bodyChunks rest := rfl

@[simp] theorem bodyChunks_write (d : List Nat) (rest : List (Ev Req)) :
    bodyChunks (Ev.sinkWrite d :: rest) = d :: bodyChunks rest := rfl

@[simp] theorem bodyChunks_append (a b : List (Ev Req)) :
    bodyChunks (a ++ b) = bodyChunks a ++ bodyChunks b := by
  induction a with
  | nil => simp
  | cons e rest ih => cases e <;> simp [ih]

@[simp] theorem phase1Calls_nil : phase1Calls ([] : List (Ev Req)) = 0 := rfl

@[simp] theorem phase1Calls_policy (r : Req) (b : Bool) (x : Int)
    (rest : List (Ev Req)) :
    phase1Calls (Ev.policy r b x :: rest) =
      phase1Calls rest + (if b then 0 else 1) := by
  cases b <;> rfl

@[simp] theorem phase1Calls_invoke (r : Req) (rest : List (Ev Req)) :
    phase1Calls (Ev.invoke r :: rest) = phase1Calls rest := rfl

@[simp] theorem phase1Calls_commit (c : Int) (rest : List (Ev Req)) :
    phase1Calls (Ev.sinkWriteHeader c :: rest) = phase1Calls rest := rfl

@[simp] theorem phase1Calls_write (d : List Nat) (rest : List (Ev Req)) :
    phase1Calls (Ev.sinkWrite d :: rest) = phase1Calls rest := rfl

@[simp] theorem phase1Calls_append (a b : List (Ev Req)) :
    phase1Calls (a ++ b) = phase1Calls a + phase1Calls b := by
  induction a with
  | nil => simp
  | cons e rest ih => cases e with
    | policy r bb x =>
      cases bb with
      | false => simp [ih]; omega
      | true => simp [ih]
    | invoke r => simp [ih]
    | sinkWriteHeader c => simp [ih]
    | sinkWrite d => simp [ih]

@[simp] theorem phase2Calls_nil : phase2Calls ([] : List (Ev Req)) = 0 := rfl

@[simp] theorem phase2Calls_policy (r : Req) (b : Bool) (x : Int)
    (rest : List (Ev Req)) :
    phase2Calls (Ev.policy r b x :: rest) =
      phase2Calls rest + (if b then 1 else 0) := by
  cases b <;> rfl

@[simp] theorem phase2Calls_invoke (r : Req) (rest : List (Ev Req)) :
    phase2Calls (Ev.invoke r :: rest) = phase2Calls rest := rfl

@[simp] theorem phase2Calls_commit (c : Int) (rest : List (Ev Req)) :
    phase2Calls (Ev.sinkWriteHeader c :: rest) = phase2Calls rest := rfl

@[simp] theorem phase2Calls_write (d : List Nat) (rest : List (Ev Req)) :
    phase2Calls (Ev.sinkWrite d :: rest) = phase2Calls rest := rfl

@[simp] theorem phase2Calls_append (a b : List (Ev Req)) :
    phase2Calls (a ++ b) = phase2Calls a + phase2Calls b := by
  induction a with
  | nil => simp
  | cons e rest ih => cases e with
    | policy r bb x =>
      cases bb with
      | false => simp [ih]
      | true => simp [ih]; omega
    | invoke r => simp [ih]
    | sinkWriteHeader c => simp [ih]
    | sinkWrite d => simp [ih]

@[simp] theorem commitEvents_map_sinkWrite (l : List (List Nat)) :
    commitEvents (l.map (Ev.sinkWrite : List Nat → Ev Req)) = [] := by
  induction l with
  | nil => simp
  | cons d rest ih => simp [ih]

@[simp] theorem bodyChunks_map_sinkWrite (l : List (List Nat)) :
    bodyChunks (l.map (Ev.sinkWrite : List Nat → Ev Req)) = l := by
  induction l with
  | nil => simp
  | cons d rest ih => simp [ih]

@[simp] theorem phase1Calls_map_sinkWrite (l : List (List Nat)) :
    phase1Calls (l.map (Ev.sinkWrite : List Nat → Ev Req)) = 0 := by
  induction l with
  | nil => simp
  | cons d rest ih => simp [ih]

@[simp] theorem phase2Calls_map_sinkWrite (l : List (List Nat)) :
    phase2Calls (l.map (Ev.sinkWrite : List Nat → Ev Req)) = 0 := by
  induction l with
  | nil => simp
  | cons d rest ih => simp [ih]

@[simp] theorem invoke_not_mem_map_sinkWrite (r : Req) (l : List (List Nat)) :
    Ev.invoke r ∉ l.map (Ev.sinkWrite : List Nat → Ev Req) := by
  induction l with
  | nil => simp
  | cons d rest ih => simp [ih]

@[simp] theorem handlerWrites_cons (a : Action) (rest : List Action) :
    handlerWrites (a :: rest) = actWrites a ++ handlerWrites rest := by
  cases a <;> rfl

@[simp] theorem handlerWrites_nil : handlerWrites [] = [] := rfl

@[simp] theorem handlerWrites_append (a b : List Action) :
    handlerWrites (a ++ b) = handlerWrites a ++ handlerWrites b := by
  induction a with
  | nil => simp
  | cons x rest ih => cases x <;> simp [ih, handlerWrites]

@[simp] theorem handlerWrites_map_write (l : List (List Nat)) :
    handlerWrites (l.map Action.write) = l := by
  induction l with
  | nil => rfl
  | cons d rest ih => simp [handlerWrites, ih]

@[simp] theorem sinkAfter_nil (sk : Sink σ ρ) (s : σ) :
    sinkAfter sk s [] = s := rfl

@[simp] theorem sinkAfter_cons (sk : Sink σ ρ) (s : σ) (d : List Nat)
    (rest : List (List Nat)) :
    sinkAfter sk s (d :: rest) = sinkAfter sk (sk.write s d).1 rest := rfl

/-! Structural lemmas about the guard and the handler interpreter. -/

/-- After the response is committed, `WriteHeader` is the identity. -/
theorem rwWriteHeader_committed (sf : Req → Bool → Int) (sk : Sink σ ρ)
    (req : Req) (st : St Req σ) (c : Int) (hst : st.status ≠ 0) :
    rwWriteHeader sf sk req st c = Except.ok st := by
  unfold rwWriteHeader
  rw [if_pos hst]

/-- After the response is committed, `Write` is a pure delegation to the
real sink, forwarding the data and the sink's own result. -/
theorem rwWrite_committed (sf : Req → Bool → Int) (sk : Sink σ ρ)
    (req : Req) (st : St Req σ) (d : List Nat) (hst : st.status ≠ 0) :
    rwWrite sf sk req st d =
      Except.ok (⟨(sk.write st.sink d).1, st.events ++ [Ev.sinkWrite d],
        st.status⟩, (sk.write st.sink d).2) := by
  unfold rwWrite
  rw [if_neg hst]

/-- Unfolding step: a header call that succeeds. -/
theorem runHandler_step_wh (sf : Req → Bool → Int) (sk : Sink σ ρ)
    (req : Req) (c : Int) (rest : List Action) (st st2 : St Req σ)
    (h : rwWriteHeader sf sk req st c = Except.ok st2) :
    runHandler sf sk req (Action.writeHeader c :: rest) st =
      runHandler sf sk req rest st2 := by
  rw [runHandler, h]

/-- Unfolding step: a byte write that succeeds. -/
theorem runHandler_step_w (sf : Req → Bool → Int) (sk : Sink σ ρ)
    (req : Req) (d : List Nat) (rest : List Action) (st st2 : St Req σ)
    (r0 : ρ) (h : rwWrite sf sk req st d = Except.ok (st2, r0)) :
    runHandler sf sk req (Action.write d :: rest) st =
      runHandler sf sk req rest st2 := by
  rw [runHandler, h]

/-- Running any downstream call sequence from a committed state: every
header call is a no-op, every write is delegated; the status never
changes and the trace grows only by the sink byte writes. -/
theorem runHandler_committed (sf : Req → Bool → Int) (sk : Sink σ ρ)
    (req : Req) (h : List Action) :
    ∀ st : St Req σ, st.status ≠ 0 →
      runHandler sf sk req h st =
        Except.ok ⟨sinkAfter sk st.sink (handlerWrites h),
          st.events ++ (handlerWrites h).map Ev.sinkWrite, st.status⟩ := by
  induction h with
  | nil => intro st hst; simp [runHandler, handlerWrites]
  | cons a rest ih =>
    intro st hst
    cases a with
    | writeHeader c =>
      rw [runHandler_step_wh sf sk req c rest st st
            (rwWriteHeader_committed sf sk req st c hst),
          ih st hst]
      simp [actWrites]
    | write d =>
      rw [runHandler_step_w sf sk req d rest st
            ⟨(sk.write st.sink d).1, st.events ++ [Ev.sinkWrite d], st.status⟩
            (sk.write st.sink d).2
            (rwWrite_committed sf sk req st d hst),
          ih ⟨(sk.write st.sink d).1, st.events ++ [Ev.sinkWrite d],
            st.status⟩ hst]
      simp [actWrites]

/-- When phase 1 returns 0, `ServeHTTP` dispatches the downstream handler
on a guard in the uncommitted state. -/
theorem serveHTTP_dispatch (sf : Req → Bool → Int) (sk : Sink σ ρ)
    (h : List Action) (req : Req) (sk0 : σ) (h1 : sf req false = 0) :
    serveHTTP sf sk h req sk0 =
      runHandler sf sk req h
        ⟨sk0, [Ev.policy req false 0, Ev.invoke req], 0⟩ := by
  unfold serveHTTP
  rw [h1]
  simp

/-- First downstream call from an uncommitted state, invalid phase-2
decision: the abort carries the offending value, the sink and the commit
state are untouched, only the policy call is recorded. -/
theorem runHandler_abort_first (sf : Req → Bool → Int) (sk : Sink σ ρ)
    (req : Req) (a : Action) (rest : List Action) (st : St Req σ)
    (h0 : st.status = 0) (hne : sf req true ≠ 0)
    (hinv : sf req true < 400 ∨ 600 ≤ sf req true) :
    runHandler sf sk req (a :: rest) st =
      Except.error (sf req true,
        ⟨st.sink, st.events ++ [Ev.policy req true (sf req true)],
          st.status⟩) := by
  have hwh : rwWriteHeader sf sk req st 200 =
      Except.error (sf req true,
        ⟨st.sink, st.events ++ [Ev.policy req true (sf req true)],
          st.status⟩) := by
    unfold rwWriteHeader
    rw [if_neg (by simp [h0]), if_pos hne, if_pos hinv]
  cases a with
  | writeHeader c =>
    have hwhc : rwWriteHeader sf sk req st c =
        Except.error (sf req true,
          ⟨st.sink, st.events ++ [Ev.policy req true (sf req true)],
            st.status⟩) := by
      unfold rwWriteHeader
      rw [if_neg (by simp [h0]), if_pos hne, if_pos hinv]
    rw [runHandler, hwhc]
  | write d =>
    rw [runHandler]
    unfold rwWrite
    rw [if_pos h0, hwh]

/-- First downstream call from an uncommitted state, valid phase-2
decision: the resolved code (the forced status if nonzero, otherwise the
code determined by the call itself) is committed once, and the rest of
the handler runs in the committed state. -/
theorem runHandler_commit_first (sf : Req → Bool → Int) (sk : Sink σ ρ)
    (req : Req) (a : Action) (rest : List Action) (st : St Req σ)
    (h0 : st.status = 0)
    (hvalid : sf req true = 0 ∨ (400 ≤ sf req true ∧ sf req true < 600))
    (hcnz : (if sf req true = 0 then actCode a else sf req true) ≠ 0) :
    runHandler sf sk req (a :: rest) st =
      Except.ok ⟨sinkAfter sk
          (sk.writeHeader st.sink
            (if sf req true = 0 then actCode a else sf req true))
          (actWrites a ++ handlerWrites rest),
        st.events ++ [Ev.policy req true (sf req true),
          Ev.sinkWriteHeader
            (if sf req true = 0 then actCode a else sf req true)] ++
          (actWrites a ++ handlerWrites rest).map Ev.sinkWrite,
        if sf req true = 0 then actCode a else sf req true⟩ := by
  rcases hvalid with ht0 | ⟨h4, h6⟩
  · rw [if_pos ht0] at hcnz ⊢
    cases a with
    | writeHeader c =>
      have hc : c ≠ 0 := by simpa [actCode] using hcnz
      have hwh : rwWriteHeader sf sk req st c =
          Except.ok ⟨sk.writeHeader st.sink c,
            st.events ++ [Ev.policy req true (sf req true),
              Ev.sinkWriteHeader c], c⟩ := by
        unfold rwWriteHeader
        rw [if_neg (by simp [h0]), if_neg (by simp [ht0])]
      rw [runHandler_step_wh sf sk req c rest st _ hwh,
          runHandler_committed sf sk req rest
            ⟨sk.writeHeader st.sink c,
              st.events ++ [Ev.policy req true (sf req true),
                Ev.sinkWriteHeader c], c⟩ hc]
      simp [actCode, actWrites]
    | write d =>
      have hwh : rwWriteHeader sf sk req st 200 =
          Except.ok ⟨sk.writeHeader st.sink 200,
            st.events ++ [Ev.policy req true (sf req true),
              Ev.sinkWriteHeader 200], 200⟩ := by
        unfold rwWriteHeader
        rw [if_neg (by simp [h0]), if_neg (by simp [ht0])]
      have hw : rwWrite sf sk req st d =
          Except.ok (⟨(sk.write (sk.writeHeader st.sink 200) d).1,
            st.events ++ [Ev.policy req true (sf req true),
              Ev.sinkWriteHeader 200, Ev.sinkWrite d], 200⟩,
            (sk.write (sk.writeHeader st.sink 200) d).2) := by
        unfold rwWrite
        rw [if_pos h0, hwh]
        simp
      rw [runHandler_step_w sf sk req d rest st _ _ hw,
          runHandler_committed sf sk req rest
            ⟨(sk.write (sk.writeHeader st.sink 200) d).1,
              st.events ++ [Ev.policy req true (sf req true),
                Ev.sinkWriteHeader 200, Ev.sinkWrite d], 200⟩
            (by norm_num)]
      simp [actCode, actWrites]
  · have hne : sf req true ≠ 0 := by omega
    rw [if_neg hne] at hcnz ⊢
    have hok : ∀ c : Int, rwWriteHeader sf sk req st c =
        Except.ok ⟨sk.writeHeader st.sink (sf req true),
          st.events ++ [Ev.policy req true (sf req true),
            Ev.sinkWriteHeader (sf req true)], sf req true⟩ := by
      intro c
      unfold rwWriteHeader
      rw [if_neg (by simp [h0]), if_pos hne, if_neg (by omega)]
    cases a with
    | writeHeader c =>
      rw [runHandler_step_wh sf sk req c rest st _ (hok c),
          runHandler_committed sf sk req rest
            ⟨sk.writeHeader st.sink (sf req true),
              st.events ++ [Ev.policy req true (sf req true),
                Ev.sinkWriteHeader (sf req true)], sf req true⟩ hcnz]
      simp [actWrites]
    | write d =>
      have hw : rwWrite sf sk req st d =
          Except.ok (⟨(sk.write (sk.writeHeader st.sink (sf req true)) d).1,
            st.events ++ [Ev.policy req true (sf req true),
              Ev.sinkWriteHeader (sf req true), Ev.sinkWrite d],
            sf req true⟩,
            (sk.write (sk.writeHeader st.sink (sf req true)) d).2) := by
        unfold rwWrite
        rw [if_pos h0, hok 200]
        simp
      rw [runHandler_step_w sf sk req d rest st _ _ hw,
          runHandler_committed sf sk req rest
            ⟨(sk.write (sk.writeHeader st.sink (sf req true)) d).1,
              st.events ++ [Ev.policy req true (sf req true),
                Ev.sinkWriteHeader (sf req true), Ev.sinkWrite d],
              sf req true⟩ hcnz]
      simp [actWrites]

/-- Both outcomes of a header call only append to the event trace. -/
theorem rwWriteHeader_extend (sf : Req → Bool → Int) (sk : Sink σ ρ)
    (req : Req) (st : St Req σ) (c : Int) :
    (∀ st2, rwWriteHeader sf sk req st c = Except.ok st2 →
      ∃ t, st2.events = st.events ++ t) ∧
    (∀ e, rwWriteHeader sf sk req st c = Except.error e →
      ∃ t, e.2.events = st.events ++ t) := by
  constructor <;> intro x hx <;> revert hx <;> unfold rwWriteHeader <;>
    split <;> intro hx
  · cases hx; exact ⟨[], by simp⟩
  · revert hx; split <;> intro hx
    · revert hx; split <;> intro hx
      · cases hx
      · cases hx; exact ⟨_, rfl⟩
    · cases hx; exact ⟨_, rfl⟩
  · cases hx
  · revert hx; split <;> intro hx
    · revert hx; split <;> intro hx
      · cases hx; exact ⟨_, rfl⟩
      · cases hx
    · cases hx

/-- Both outcomes of a byte write only append to the event trace. -/
theorem rwWrite_extend (sf : Req → Bool → Int) (sk : Sink σ ρ)
    (req : Req) (st : St Req σ) (d : List Nat) :
    (∀ out, rwWrite sf sk req st d = Except.ok out →
      ∃ t, (Prod.fst out).events = st.events ++ t) ∧
    (∀ e, rwWrite sf sk req st d = Except.error e →
      ∃ t, e.2.events = st.events ++ t) := by
  constructor <;> intro x hx <;> revert hx <;> unfold rwWrite
  · cases hif : (if st.status = 0 then rwWriteHeader sf sk req st 200
        else Except.ok st) with
    | error e =>
      intro hx; cases hx
    | ok st2 =>
      intro hx
      cases hx
      have hst2 : ∃ t, st2.events = st.events ++ t := by
        revert hif; split <;> intro hif
        · exact (rwWriteHeader_extend sf sk req st 200).1 st2 hif
        · cases hif; exact ⟨[], by simp⟩
      obtain ⟨t, ht⟩ := hst2
      exact ⟨t ++ [Ev.sinkWrite d], by simp [ht]⟩
  · cases hif : (if st.status = 0 then rwWriteHeader sf sk req st 200
        else Except.ok st) with
    | error e =>
      intro hx
      cases hx
      revert hif; split <;> intro hif
      · exact (rwWriteHeader_extend sf sk req st 200).2 _ hif
      · cases hif
    | ok st2 =>
      intro hx; cases hx

/-- Running the downstream handler only appends to the event trace,
whether it returns normally or aborts. -/
theorem runHandler_extend (sf : Req → Bool → Int) (sk : Sink σ ρ)
    (req : Req) (h : List Action) :
    ∀ st : St Req σ,
      ∃ t, (finalSt (runHandler sf sk req h st)).events = st.events ++ t := by
  induction h with
  | nil => intro st; exact ⟨[], by simp [runHandler, finalSt]⟩
  | cons a rest ih =>
    intro st
    cases a with
    | writeHeader c =>
      cases hE : rwWriteHeader sf sk req st c with
      | error e =>
        obtain ⟨t, ht⟩ := (rwWriteHeader_extend sf sk req st c).2 e hE
        refine ⟨t, ?_⟩
        rw [runHandler, hE]
        simpa [finalSt] using ht
      | ok st2 =>
        obtain ⟨t1, ht1⟩ := (rwWriteHeader_extend sf sk req st c).1 st2 hE
        obtain ⟨t2, ht2⟩ := ih st2
        refine ⟨t1 ++ t2, ?_⟩
        rw [runHandler, hE]
        simp [ht2, ht1]
    | write d =>
      cases hE : rwWrite sf sk req st d with
      | error e =>
        obtain ⟨t, ht⟩ := (rwWrite_extend sf sk req st d).2 e hE
        refine ⟨t, ?_⟩
        rw [runHandler, hE]
        simpa [finalSt] using ht
      | ok out =>
        obtain ⟨t1, ht1⟩ := (rwWrite_extend sf sk req st d).1 out hE
        obtain ⟨t2, ht2⟩ := ih out.1
        refine ⟨t1 ++ t2, ?_⟩
        rw [runHandler, hE]
        simp [ht2, ht1]

/-- When phase 1 passes, the final trace starts with the phase-1 policy
call followed by the dispatch marker, whatever the handler then does. -/
theorem serveHTTP_events_shape (sf : Req → Bool → Int) (sk : Sink σ ρ)
    (h : List Action) (req : Req) (sk0 : σ) (h1 : sf req false = 0) :
    ∃ t, (finalSt (serveHTTP sf sk h req sk0)).events =
      [Ev.policy req false 0, Ev.invoke req] ++ t := by
  rw [serveHTTP_dispatch sf sk h req sk0 h1]
  exact runHandler_extend sf sk req h
    ⟨sk0, [Ev.policy req false 0, Ev.invoke req], 0⟩

/-! Claim theorems. -/

/-- Claim C1: if the phase-1 decision is nonzero and in [400,599], the
downstream handler is never invoked and the response is finalized with
exactly that status and an empty body: the real sink receives exactly one
commit, with that status, and no body bytes. -/
theorem c1_phase1_short_circuit (sf : Req → Bool → Int) (sk : Sink σ ρ)
    (h : List Action) (req : Req) (sk0 : σ)
    (hnz : sf req false ≠ 0) (h4 : 400 ≤ sf req false)
    (h6 : sf req false < 600) :
    serveHTTP sf sk h req sk0 =
      Except.ok ⟨sk.writeHeader sk0 (sf req false),
        [Ev.policy req false (sf req false),
          Ev.sinkWriteHeader (sf req false)], 0⟩ ∧
    commitEvents (finalSt (serveHTTP sf sk h req sk0)).events =
      [sf req false] ∧
    bodyChunks (finalSt (serveHTTP sf sk h req sk0)).events = [] ∧
    Ev.invoke req ∉ (finalSt (serveHTTP sf sk h req sk0)).events := by
  have hmain : serveHTTP sf sk h req sk0 =
      Except.ok ⟨sk.writeHeader sk0 (sf req false),
        [Ev.policy req false (sf req false),
          Ev.sinkWriteHeader (sf req false)], 0⟩ := by
    unfold serveHTTP
    rw [if_pos hnz, if_neg (by omega)]
  refine ⟨hmain, ?_, ?_, ?_⟩ <;> rw [hmain] <;> simp [finalSt]

/-- Concrete instance of C1: policy 503 at phase 1, handler ignored. -/
theorem c1_phase1_short_circuit_w :
    sf503 0 false ≠ 0 ∧ 400 ≤ sf503 0 false ∧ sf503 0 false < 600 ∧
    (serveHTTP sf503 natSink [Action.write [104]] 0 0 =
      Except.ok ⟨1, [Ev.policy 0 false 503, Ev.sinkWriteHeader 503], 0⟩ ∧
    commitEvents (finalSt (serveHTTP sf503 natSink
      [Action.write [104]] 0 0)).events = [503] ∧
    bodyChunks (finalSt (serveHTTP sf503 natSink
      [Action.write [104]] 0 0)).events = [] ∧
    Ev.invoke 0 ∉ (finalSt (serveHTTP sf503 natSink
      [Action.write [104]] 0 0)).events) :=
  ⟨by decide, by decide, by decide,
    c1_phase1_short_circuit sf503 natSink [Action.write [104]] 0 0
      (by decide) (by decide) (by decide)⟩

/-- Claim C5: an out-of-contract policy value (outside {0} and
[400,599]) at either phase aborts request processing carrying the
offending value; the value is never committed to the sink, and in the
phase-1 case the handler is not invoked and no bytes reach the sink. -/
theorem c5_invalid_decision_aborts (sf : Req → Bool → Int) (sk : Sink σ ρ)
    (req : Req) (sk0 : σ) :
    (∀ h : List Action, sf req false ≠ 0 →
      (sf req false < 400 ∨ 600 ≤ sf req false) →
      serveHTTP sf sk h req sk0 =
        Except.error (sf req false,
          ⟨sk0, [Ev.policy req false (sf req false)], 0⟩)) ∧
    (∀ (a : Action) (rest : List Action), sf req false = 0 →
      sf req true ≠ 0 → (sf req true < 400 ∨ 600 ≤ sf req true) →
      serveHTTP sf sk (a :: rest) req sk0 =
        Except.error (sf req true,
          ⟨sk0, [Ev.policy req false 0, Ev.invoke req,
            Ev.policy req true (sf req true)], 0⟩)) := by
  constructor
  · intro h hne hinv
    unfold serveHTTP
    rw [if_pos hne, if_pos hinv]
  · intro a rest h1 hne hinv
    rw [serveHTTP_dispatch sf sk (a :: rest) req sk0 h1,
        runHandler_abort_first sf sk req a rest _ rfl hne hinv]
    simp

/-- Concrete instances of C5: 399 at phase 1, 700 at phase 2. -/
theorem c5_invalid_decision_aborts_w :
    (sf399 0 false ≠ 0 ∧ (sf399 0 false < 400 ∨ 600 ≤ sf399 0 false) ∧
      serveHTTP sf399 natSink [Action.write [104]] 0 0 =
        Except.error (399, ⟨0, [Ev.policy 0 false 399], 0⟩)) ∧
    (sfLate700 0 false = 0 ∧ sfLate700 0 true ≠ 0 ∧
      (sfLate700 0 true < 400 ∨ 600 ≤ sfLate700 0 true) ∧
      serveHTTP sfLate700 natSink [Action.write [104]] 0 0 =
        Except.error (700, ⟨0, [Ev.policy 0 false 0, Ev.invoke 0,
          Ev.policy 0 true 700], 0⟩)) :=
  ⟨⟨by decide, by decide,
      (c5_invalid_decision_aborts sf399 natSink 0 0).1 [Action.write [104]]
        (by decide) (by decide)⟩,
    ⟨by decide, by decide, by decide,
      (c5_invalid_decision_aborts sfLate700 natSink 0 0).2
        (Action.write [104]) [] (by decide) (by decide) (by decide)⟩⟩

/-- Claim C9: an invalid phase-2 decision during an uncommitted
`WriteHeader` call aborts before any delegation to the real sink and
before the commit flag is set: the sink state is untouched, no sink event
is recorded, and the guard status field is unchanged. -/
theorem c9_phase2_abort_atomic (sf : Req → Bool → Int) (sk : Sink σ ρ)
    (req : Req) (st : St Req σ) (status : Int)
    (h0 : st.status = 0) (hne : sf req true ≠ 0)
    (hinv : sf req true < 400 ∨ 600 ≤ sf req true) :
    rwWriteHeader sf sk req st status =
      Except.error (sf req true,
        ⟨st.sink, st.events ++ [Ev.policy req true (sf req true)],
          st.status⟩) := by
  unfold rwWriteHeader
  rw [if_neg (by simp [h0]), if_pos hne, if_pos hinv]

/-- Concrete instance of C9: phase-2 decision 700 aborts atomically. -/
theorem c9_phase2_abort_atomic_w :
    (⟨5, [], 0⟩ : St Nat Nat).status = 0 ∧ sfLate700 0 true ≠ 0 ∧
    (sfLate700 0 true < 400 ∨ 600 ≤ sfLate700 0 true) ∧
    rwWriteHeader sfLate700 natSink 0 (⟨5, [], 0⟩ : St Nat Nat) 201 =
      Except.error (700, ⟨5, [Ev.policy 0 true 700], 0⟩) :=
  ⟨rfl, by decide, by decide,
    c9_phase2_abort_atomic sfLate700 natSink 0 ⟨5, [], 0⟩ 201 rfl
      (by decide) (by decide)⟩

/-- Claim C8: the guard's `Write` delegates the exact byte sequence to
the real sink unmodified and returns exactly the sink's own result, on
the committed path, on the implicit-commit path with no fault, and on
the implicit-commit path with a forced valid status; fault injection
never alters the body bytes. -/
theorem c8_write_delegates (sf : Req → Bool → Int) (sk : Sink σ ρ)
    (req : Req) (st : St Req σ) (data : List Nat) :
    (st.status ≠ 0 →
      rwWrite sf sk req st data =
        Except.ok (⟨(sk.write st.sink data).1,
          st.events ++ [Ev.sinkWrite data], st.status⟩,
          (sk.write st.sink data).2)) ∧
    (st.status = 0 → sf req true = 0 →
      rwWrite sf sk req st data =
        Except.ok (⟨(sk.write (sk.writeHeader st.sink 200) data).1,
          st.events ++ [Ev.policy req true 0, Ev.sinkWriteHeader 200,
            Ev.sinkWrite data], 200⟩,
          (sk.write (sk.writeHeader st.sink 200) data).2)) ∧
    (st.status = 0 → 400 ≤ sf req true → sf req true < 600 →
      rwWrite sf sk req st data =
        Except.ok (⟨(sk.write (sk.writeHeader st.sink (sf req true)) data).1,
          st.events ++ [Ev.policy req true (sf req true),
            Ev.sinkWriteHeader (sf req true), Ev.sinkWrite data],
          sf req true⟩,
          (sk.write (sk.writeHeader st.sink (sf req true)) data).2)) := by
  refine ⟨fun hst => rwWrite_committed sf sk req st data hst, ?_, ?_⟩
  · intro h0 ht0
    have hwh : rwWriteHeader sf sk req st 200 =
        Except.ok ⟨sk.writeHeader st.sink 200,
          st.events ++ [Ev.policy req true (sf req true),
            Ev.sinkWriteHeader 200], 200⟩ := by
      unfold rwWriteHeader
      rw [if_neg (by simp [h0]), if_neg (by simp [ht0])]
    unfold rwWrite
    rw [if_pos h0, hwh]
    simp [ht0]
  · intro h0 h4 h6
    have hne : sf req true ≠ 0 := by omega
    have hwh : rwWriteHeader sf sk req st 200 =
        Except.ok ⟨sk.writeHeader st.sink (sf req true),
          st.events ++ [Ev.policy req true (sf req true),
            Ev.sinkWriteHeader (sf req true)], sf req true⟩ := by
      unfold rwWriteHeader
      rw [if_neg (by simp [h0]), if_pos hne, if_neg (by omega)]
    unfold rwWrite
    rw [if_pos h0, hwh]
    simp

/-- Concrete instances of C8 on all three paths. -/
theorem c8_write_delegates_w :
    ((⟨3, [], 201⟩ : St Nat Nat).status ≠ 0 ∧
      rwWrite sfZero natSink 0 (⟨3, [], 201⟩ : St Nat Nat) [7, 8] =
        Except.ok (⟨4, [Ev.sinkWrite [7, 8]], 201⟩, 2)) ∧
    ((⟨3, [], 0⟩ : St Nat Nat).status = 0 ∧ sfZero 0 true = 0 ∧
      rwWrite sfZero natSink 0 (⟨3, [], 0⟩ : St Nat Nat) [7, 8] =
        Except.ok (⟨5, [Ev.policy 0 true 0, Ev.sinkWriteHeader 200,
          Ev.sinkWrite [7, 8]], 200⟩, 2)) ∧
    ((⟨3, [], 0⟩ : St Nat Nat).status = 0 ∧ 400 ≤ sfLate500 0 true ∧
      sfLate500 0 true < 600 ∧
      rwWrite sfLate500 natSink 0 (⟨3, [], 0⟩ : St Nat Nat) [7, 8] =
        Except.ok (⟨5, [Ev.policy 0 true 500, Ev.sinkWriteHeader 500,
          Ev.sinkWrite [7, 8]], 500⟩, 2)) :=
  ⟨⟨by decide,
      (c8_write_delegates sfZero natSink 0 ⟨3, [], 201⟩ [7, 8]).1
        (by decide)⟩,
    ⟨rfl, by decide,
      (c8_write_delegates sfZero natSink 0 ⟨3, [], 0⟩ [7, 8]).2.1
        rfl (by decide)⟩,
    ⟨rfl, by decide, by decide,
      (c8_write_delegates sfLate500 natSink 0 ⟨3, [], 0⟩ [7, 8]).2.2
        rfl (by decide) (by decide)⟩⟩

/-- Claim C10: the trace of every request starts with the phase-1
(pre-dispatch) policy call, and a phase-2 (pre-commit) policy call occurs
only when that earlier phase-1 call returned 0. -/
theorem c10_phase_order (sf : Req → Bool → Int) (sk : Sink σ ρ)
    (h : List Action) (req : Req) (sk0 : σ) :
    (finalSt (serveHTTP sf sk h req sk0)).events.head? =
      some (Ev.policy req false (sf req false)) ∧
    (phase2Calls (finalSt (serveHTTP sf sk h req sk0)).events ≠ 0 →
      sf req false = 0) := by
  by_cases h1 : sf req false = 0
  · obtain ⟨t, ht⟩ := serveHTTP_events_shape sf sk h req sk0 h1
    constructor
    · rw [ht, h1]; rfl
    · intro _; exact h1
  · unfold serveHTTP
    rw [if_pos h1]
    by_cases hinv : sf req false < 400 ∨ 600 ≤ sf req false
    · rw [if_pos hinv]
      refine ⟨rfl, fun hp => ?_⟩
      simp [finalSt] at hp
    · rw [if_neg hinv]
      refine ⟨rfl, fun hp => ?_⟩
      simp [finalSt] at hp

/-- Concrete instance of C10: a request with a phase-2 call indeed had
phase-1 decision 0. -/
theorem c10_phase_order_w : sfLate500 0 false = 0 :=
  (c10_phase_order sfLate500 natSink [Action.write [104]] 0 0).2 (by decide)

/-- Claim C2: if phase 1 returns 0 and phase 2 a valid failure status t,
the downstream handler is invoked, every byte it writes reaches the sink,
and the only status committed to the sink is t, not any status the
handler attempted to set. -/
theorem c2_phase2_overrides (sf : Req → Bool → Int) (sk : Sink σ ρ)
    (h : List Action) (req : Req) (sk0 : σ)
    (h1 : sf req false = 0) (h4 : 400 ≤ sf req true)
    (h6 : sf req true < 600) :
    ∃ st, serveHTTP sf sk h req sk0 = Except.ok st ∧
      Ev.invoke req ∈ st.events ∧
      bodyChunks st.events = handlerWrites h ∧
      commitEvents st.events = (if h = [] then [] else [sf req true]) ∧
      (h ≠ [] → st.status = sf req true) := by
  rw [serveHTTP_dispatch sf sk h req sk0 h1]
  cases h with
  | nil =>
    refine ⟨⟨sk0, [Ev.policy req false 0, Ev.invoke req], 0⟩,
      rfl, ?_, ?_, ?_, ?_⟩
    · simp
    · simp [handlerWrites]
    · simp
    · intro hne; exact absurd rfl hne
  | cons a rest =>
    have hne : sf req true ≠ 0 := by omega
    have hrw := runHandler_commit_first sf sk req a rest
      ⟨sk0, [Ev.policy req false 0, Ev.invoke req], 0⟩ rfl
      (Or.inr ⟨h4, h6⟩) (by rw [if_neg hne]; exact hne)
    rw [if_neg hne] at hrw
    refine ⟨_, hrw, ?_, ?_, ?_, ?_⟩
    · simp
    · simp
    · simp
    · intro _; rfl

/-- Concrete instance of C2: forced 500 overrides the handler's 201. -/
theorem c2_phase2_overrides_w :
    sfLate500 0 false = 0 ∧ 400 ≤ sfLate500 0 true ∧ sfLate500 0 true < 600 ∧
    ∃ st, serveHTTP sfLate500 natSink
        [Action.writeHeader 201, Action.write [104]] 0 0 = Except.ok st ∧
      Ev.invoke 0 ∈ st.events ∧
      bodyChunks st.events = [[104]] ∧
      commitEvents st.events = [500] ∧
      ([Action.writeHeader 201, Action.write [104]] ≠ ([] : List Action) →
        st.status = 500) :=
  ⟨by decide, by decide, by decide,
    c2_phase2_overrides sfLate500 natSink
      [Action.writeHeader 201, Action.write [104]] 0 0
      (by decide) (by decide) (by decide)⟩

/-- Claim C3 as stated is false: a handler that writes body bytes first
and calls `WriteHeader 503` afterwards did explicitly set 503 as its
first status, yet the sink receives the implicit 200 committed by the
first body write, not 503. -/
theorem c3_counterexample :
    commitEvents (finalSt (serveHTTP sfZero natSink
      [Action.write [104, 105], Action.writeHeader 503] 0 0)).events =
      [200] ∧
    firstSetStatus [Action.write [104, 105], Action.writeHeader 503] =
      some 503 ∧
    ((200 : Int) = 503 → False) := by decide

/-- Claim C3 amended: with both decisions 0, the committed status is the
one determined by the handler's first response call (the code of its
first `WriteHeader` if it precedes any body write, otherwise the implicit
200), provided that code is nonzero, and the body delivered to the sink
is exactly the bytes the handler wrote, in order. -/
theorem c3_first_action_status (sf : Req → Bool → Int) (sk : Sink σ ρ)
    (h : List Action) (req : Req) (sk0 : σ)
    (h1 : sf req false = 0) (h2 : sf req true = 0)
    (hfc : h = [] ∨ firstCode h ≠ 0) :
    ∃ st, serveHTTP sf sk h req sk0 = Except.ok st ∧
      Ev.invoke req ∈ st.events ∧
      bodyChunks st.events = handlerWrites h ∧
      commitEvents st.events = (if h = [] then [] else [firstCode h]) ∧
      st.status = firstCode h := by
  rw [serveHTTP_dispatch sf sk h req sk0 h1]
  cases h with
  | nil =>
    refine ⟨⟨sk0, [Ev.policy req false 0, Ev.invoke req], 0⟩,
      rfl, ?_, ?_, ?_, ?_⟩
    · simp
    · simp [handlerWrites]
    · simp
    · rfl
  | cons a rest =>
    have hcnz : actCode a ≠ 0 := by
      rcases hfc with hnil | hfc
      · simp at hnil
      · simpa [firstCode] using hfc
    have hrw := runHandler_commit_first sf sk req a rest
      ⟨sk0, [Ev.policy req false 0, Ev.invoke req], 0⟩ rfl
      (Or.inl h2) (by rw [if_pos h2]; exact hcnz)
    rw [if_pos h2] at hrw
    refine ⟨_, hrw, ?_, ?_, ?_, ?_⟩
    · simp
    · simp
    · simp [firstCode]
    · simp [firstCode]

/-- Concrete instance of the amended C3: body-only handler, status 200. -/
theorem c3_first_action_status_w :
    sfZero 0 false = 0 ∧ sfZero 0 true = 0 ∧
    ([Action.write [104]] = ([] : List Action) ∨
      firstCode [Action.write [104]] ≠ 0) ∧
    ∃ st, serveHTTP sfZero natSink [Action.write [104]] 0 0 =
        Except.ok st ∧
      Ev.invoke 0 ∈ st.events ∧
      bodyChunks st.events = [[104]] ∧
      commitEvents st.events = [200] ∧
      st.status = 200 :=
  ⟨by decide, by decide, Or.inr (by decide),
    c3_first_action_status sfZero natSink [Action.write [104]] 0 0
      (by decide) (by decide) (Or.inr (by decide))⟩

/-- Claim C4 as stated is false: with no fault injected, a handler that
calls `WriteHeader 0` and then `WriteHeader 201` has called commit-status
twice with different codes, yet the second call is delegated (the sink
receives both 0 and 201) and the recorded status ends at 201, not at the
first code 0. -/
theorem c4_counterexample :
    commitEvents (finalSt (serveHTTP sfZero natSink
      [Action.writeHeader 0, Action.writeHeader 201] 0 0)).events =
      [0, 201] ∧
    (finalSt (serveHTTP sfZero natSink
      [Action.writeHeader 0, Action.writeHeader 201] 0 0)).status = 201 ∧
    ((201 : Int) = 0 → False) := by decide

/-- Claim C4 amended: with no fault injected, if the downstream handler
calls commit-status twice with different codes and the first code is
nonzero, the committed status is the first code and the second call is a
no-op: the run is identical to the run without it, so nothing crashes,
the status is unchanged and all body bytes are preserved. -/
theorem c4_second_commit_noop (sf : Req → Bool → Int) (sk : Sink σ ρ)
    (req : Req) (sk0 : σ) (a b : Int) (ds : List (List Nat))
    (post : List Action)
    (h1 : sf req false = 0) (h2 : sf req true = 0) (ha : a ≠ 0)
    (_hab : a ≠ b) :
    serveHTTP sf sk
        (Action.writeHeader a :: (ds.map Action.write ++
          (Action.writeHeader b :: post))) req sk0 =
      serveHTTP sf sk
        (Action.writeHeader a :: (ds.map Action.write ++ post)) req sk0 ∧
    ∃ st, serveHTTP sf sk
        (Action.writeHeader a :: (ds.map Action.write ++
          (Action.writeHeader b :: post))) req sk0 = Except.ok st ∧
      st.status = a ∧ commitEvents st.events = [a] ∧
      bodyChunks st.events = ds ++ handlerWrites post := by
  have h_run : ∀ rest : List Action,
      serveHTTP sf sk (Action.writeHeader a :: rest) req sk0 =
        Except.ok ⟨sinkAfter sk (sk.writeHeader sk0 a) (handlerWrites rest),
          [Ev.policy req false 0, Ev.invoke req] ++
            [Ev.policy req true (sf req true), Ev.sinkWriteHeader a] ++
            (handlerWrites rest).map Ev.sinkWrite, a⟩ := by
    intro rest
    rw [serveHTTP_dispatch sf sk _ req sk0 h1]
    have hrw := runHandler_commit_first sf sk req (Action.writeHeader a)
      rest ⟨sk0, [Ev.policy req false 0, Ev.invoke req], 0⟩ rfl
      (Or.inl h2) (by rw [if_pos h2]; simpa [actCode] using ha)
    rw [if_pos h2] at hrw
    simpa [actCode, actWrites] using hrw
  constructor
  · rw [h_run, h_run]
    simp [handlerWrites]
  · rw [h_run]
    refine ⟨_, rfl, rfl, ?_, ?_⟩
    · simp
    · simp [handlerWrites]

/-- Concrete instance of the amended C4: 201 then 202 then a body. -/
theorem c4_second_commit_noop_w :
    sfZero 0 false = 0 ∧ sfZero 0 true = 0 ∧ (201 : Int) ≠ 0 ∧
    (201 : Int) ≠ 202 ∧
    (serveHTTP sfZero natSink
        [Action.writeHeader 201, Action.writeHeader 202, Action.write [104]]
        0 0 =
      serveHTTP sfZero natSink
        [Action.writeHeader 201, Action.write [104]] 0 0 ∧
    ∃ st, serveHTTP sfZero natSink
        [Action.writeHeader 201, Action.writeHeader 202, Action.write [104]]
        0 0 = Except.ok st ∧
      st.status = 201 ∧ commitEvents st.events = [201] ∧
      bodyChunks st.events = [[104]]) :=
  ⟨by decide, by decide, by decide, by decide,
    c4_second_commit_noop sfZero natSink 0 0 201 202 []
      [Action.write [104]] (by decide) (by decide) (by decide) (by decide)⟩

/-- Claim C6 as stated is false: a handler whose first commit-status call
uses the guard sentinel code 0 leaves the guard uncommitted, so a later
body write triggers a second phase-2 policy call and a second sink
commit. -/
theorem c6_counterexample :
    phase2Calls (finalSt (serveHTTP sfZero natSink
      [Action.writeHeader 0, Action.write [104]] 0 0)).events = 2 ∧
    (commitEvents (finalSt (serveHTTP sfZero natSink
      [Action.writeHeader 0, Action.write [104]] 0 0)).events).length = 2 ∧
    ¬((2 : Nat) ≤ 1) := by decide

/-- Claim C6 amended: provided every explicit commit-status call of the
downstream handler uses a nonzero code, each request performs exactly one
phase-1 policy call, at most one phase-2 policy call (none if phase 1
forced failure), and at most one commit reaches the real sink, whatever
the handler does. -/
theorem c6_call_counts (sf : Req → Bool → Int) (sk : Sink σ ρ)
    (h : List Action) (req : Req) (sk0 : σ)
    (hg : nonzeroCodes h = true) :
    phase1Calls (finalSt (serveHTTP sf sk h req sk0)).events = 1 ∧
    phase2Calls (finalSt (serveHTTP sf sk h req sk0)).events ≤ 1 ∧
    (sf req false ≠ 0 →
      phase2Calls (finalSt (serveHTTP sf sk h req sk0)).events = 0) ∧
    (commitEvents (finalSt (serveHTTP sf sk h req sk0)).events).length
      ≤ 1 := by
  by_cases h1 : sf req false = 0
  · rw [serveHTTP_dispatch sf sk h req sk0 h1]
    cases h with
    | nil =>
      refine ⟨?_, ?_, fun hq => absurd h1 hq, ?_⟩ <;>
        simp [runHandler, finalSt]
    | cons a rest =>
      have hcnz0 : actCode a ≠ 0 := by
        cases a with
        | writeHeader c =>
          simp [nonzeroCodes] at hg
          simpa [actCode] using hg.1
        | write d => simp [actCode]
      by_cases ht : sf req true = 0
      · have hrw := runHandler_commit_first sf sk req a rest
          ⟨sk0, [Ev.policy req false 0, Ev.invoke req], 0⟩ rfl
          (Or.inl ht) (by rw [if_pos ht]; exact hcnz0)
        rw [if_pos ht] at hrw
        rw [hrw]
        refine ⟨?_, ?_, fun hq => absurd h1 hq, ?_⟩ <;> simp [finalSt]
      · by_cases hv : 400 ≤ sf req true ∧ sf req true < 600
        · have hrw := runHandler_commit_first sf sk req a rest
            ⟨sk0, [Ev.policy req false 0, Ev.invoke req], 0⟩ rfl
            (Or.inr hv) (by rw [if_neg ht]; exact ht)
          rw [if_neg ht] at hrw
          rw [hrw]
          refine ⟨?_, ?_, fun hq => absurd h1 hq, ?_⟩ <;> simp [finalSt]
        · have hinv : sf req true < 400 ∨ 600 ≤ sf req true := by omega
          rw [runHandler_abort_first sf sk req a rest _ rfl ht hinv]
          refine ⟨?_, ?_, fun hq => absurd h1 hq, ?_⟩ <;> simp [finalSt]
  · unfold serveHTTP
    rw [if_pos h1]
    by_cases hinv : sf req false < 400 ∨ 600 ≤ sf req false
    · rw [if_pos hinv]
      refine ⟨?_, ?_, fun _ => ?_, ?_⟩ <;> simp [finalSt]
    · rw [if_neg hinv]
      refine ⟨?_, ?_, fun _ => ?_, ?_⟩ <;> simp [finalSt]

/-- Concrete instance of the amended C6. -/
theorem c6_call_counts_w :
    nonzeroCodes [Action.writeHeader 201, Action.write [104]] = true ∧
    (phase1Calls (finalSt (serveHTTP sfZero natSink
      [Action.writeHeader 201, Action.write [104]] 0 0)).events = 1 ∧
    phase2Calls (finalSt (serveHTTP sfZero natSink
      [Action.writeHeader 201, Action.write [104]] 0 0)).events ≤ 1 ∧
    (sfZero 0 false ≠ 0 →
      phase2Calls (finalSt (serveHTTP sfZero natSink
        [Action.writeHeader 201, Action.write [104]] 0 0)).events = 0) ∧
    (commitEvents (finalSt (serveHTTP sfZero natSink
      [Action.writeHeader 201, Action.write [104]] 0 0)).events).length
      ≤ 1) :=
  ⟨by decide,
    c6_call_counts sfZero natSink [Action.writeHeader 201, Action.write [104]]
      0 0 (by decide)⟩

/-- Claim C7 as stated is false: when the phase-1 decision is the invalid
value 399, processing aborts before any sink commit and before dispatch,
so neither a forced status is written nor the downstream handler
invoked. -/
theorem c7_counterexample :
    ¬((forcedEarly (finalSt (serveHTTP sf399 natSink
          [Action.write [104]] 0 0)).events = true ∧
        Ev.invoke 0 ∉ (finalSt (serveHTTP sf399 natSink
          [Action.write [104]] 0 0)).events) ∨
      (forcedEarly (finalSt (serveHTTP sf399 natSink
          [Action.write [104]] 0 0)).events = false ∧
        Ev.invoke 0 ∈ (finalSt (serveHTTP sf399 natSink
          [Action.write [104]] 0 0)).events)) := by decide

/-- Claim C7 amended: whenever the phase-1 decision is in the policy
contract ({0} or [400,599]), exactly one of the two side effects happens:
either a status is committed to the sink before any dispatch and the
downstream handler is never invoked, or the handler is invoked and no
commit precedes the dispatch. -/
theorem c7_exactly_one (sf : Req → Bool → Int) (sk : Sink σ ρ)
    (h : List Action) (req : Req) (sk0 : σ)
    (hv : sf req false = 0 ∨ (400 ≤ sf req false ∧ sf req false < 600)) :
    (forcedEarly (finalSt (serveHTTP sf sk h req sk0)).events = true ∧
      Ev.invoke req ∉ (finalSt (serveHTTP sf sk h req sk0)).events) ∨
    (forcedEarly (finalSt (serveHTTP sf sk h req sk0)).events = false ∧
      Ev.invoke req ∈ (finalSt (serveHTTP sf sk h req sk0)).events) := by
  rcases hv with h1 | ⟨h4, h6⟩
  · right
    obtain ⟨t, ht⟩ := serveHTTP_events_shape sf sk h req sk0 h1
    rw [ht]
    constructor
    · simp [forcedEarly, isInvokeEv, List.takeWhile_cons]
    · simp
  · left
    have hne : sf req false ≠ 0 := by omega
    have hmain : serveHTTP sf sk h req sk0 =
        Except.ok ⟨sk.writeHeader sk0 (sf req false),
          [Ev.policy req false (sf req false),
            Ev.sinkWriteHeader (sf req false)], 0⟩ := by
      unfold serveHTTP
      rw [if_pos hne, if_neg (by omega)]
    rw [hmain]
    constructor
    · simp [finalSt, forcedEarly, isInvokeEv, List.takeWhile_cons]
    · simp [finalSt]

/-- Concrete instance of the amended C7: phase-1 pass, so dispatch. -/
theorem c7_exactly_one_w :
    (sfZero 0 false = 0 ∨ (400 ≤ sfZero 0 false ∧ sfZero 0 false < 600)) ∧
    ((forcedEarly (finalSt (serveHTTP sfZero natSink
          ([] : List Action) 0 0)).events = true ∧
        Ev.invoke 0 ∉ (finalSt (serveHTTP sfZero natSink
          ([] : List Action) 0 0)).events) ∨
      (forcedEarly (finalSt (serveHTTP sfZero natSink
          ([] : List Action) 0 0)).events = false ∧
        Ev.invoke 0 ∈ (finalSt (serveHTTP sfZero natSink
          ([] : List Action) 0 0)).events)) :=
  ⟨Or.inl (by decide),
    c7_exactly_one sfZero natSink ([] : List Action) 0 0
      (Or.inl (by decide))⟩

end Resilience
